import Mathlib

/-!
Shallow embedding of `src/constant.ts` from `deno-protoc-parser`:
the `Constant` parse node (a protobuf literal), its constructor's
value-conversion policy, `toProto`, and the static `parse` routine that
drives a token source (`Scanner`).

The token source itself (`deps.ts`) and `expectFullIdent` (`util.ts`) are
not part of the provided sources; they are modelled from the spec's
boundary contract (§6) where marked.
-/

namespace ProtocParser

/-- Token kinds produced by the token source, as distinguished by
`Constant.parse`: `Token.string`, `Token.identifier`, `Token.int`,
`Token.float`, `Token.token` (a structural symbol) and `Token.keyword`. -/
inductive TokenKind where
  | string
  | identifier
  | int
  | float
  | token
  | keyword
  deriving DecidableEq, Repr

/-- One token as yielded by the token source: its kind, its matched text
(`scanner.contents`), and the positions immediately before and after it
(`scanner.startPos` / `scanner.endPos`), each a (line, column) pair. -/
structure RawToken where
  kind : TokenKind
  contents : String
  startPos : Nat × Nat
  endPos : Nat × Nat
  deriving DecidableEq, Repr

/-- The token source (`Scanner` of `deps.ts`), modelled from the spec §6:
a stream of remaining tokens plus the current token's text, start
position and end position, which `scan` updates. -/
structure Scanner where
  tokens : List RawToken
  contents : String
  startPos : Nat × Nat
  endPos : Nat × Nat
  deriving DecidableEq, Repr

/-- Errors at the token-source level (e.g. exhausted input); such errors
pass through `parse` untranslated (spec §7). -/
inductive ScanErr where
  | eof
  | unexpected (t : RawToken)
  deriving DecidableEq, Repr

/-- Modelled from the spec §6(a): `scanner.scan()` advances to the next
token and returns its kind; `contents`/`startPos`/`endPos` then describe
that token. Fails when input is exhausted. -/
def Scanner.scan (s : Scanner) : Except ScanErr (TokenKind × Scanner) :=
  match s.tokens with
  | [] => .error .eof
  | t :: rest => .ok (t.kind, ⟨rest, t.contents, t.startPos, t.endPos⟩)

/-- A scanner positioned at the beginning of a token stream. -/
def initScanner (ts : List RawToken) : Scanner := ⟨ts, "", (0, 0), (0, 0)⟩

/-- Modelled from the spec §6(e): `expectFullIdent(scanner, false)` of
`util.ts` (not in the provided sources) — consumes a dotted
full-identifier continuation from the token source: it repeatedly
consumes a `.` symbol token followed by an identifier token, erroring if
a `.` is not followed by an identifier, and stops before the first token
that is not a `.` continuation. The `anchored` flag (false at the call
site) demands a leading separator when true. -/
def fullIdentContAux : List RawToken → String → Nat × Nat → Nat × Nat →
    Except ScanErr Scanner
  | dot :: seg :: rest, c, sp, ep =>
    if dot.kind = TokenKind.token ∧ dot.contents = "." then
      if seg.kind = TokenKind.identifier then
        fullIdentContAux rest seg.contents seg.startPos seg.endPos
      else .error (.unexpected seg)
    else .ok ⟨dot :: seg :: rest, c, sp, ep⟩
  | [dot], c, sp, ep =>
    if dot.kind = TokenKind.token ∧ dot.contents = "." then .error .eof
    else .ok ⟨[dot], c, sp, ep⟩
  | [], c, sp, ep => .ok ⟨[], c, sp, ep⟩

/-- Modelled from the spec §6(e): see `fullIdentContAux`. -/
def expectFullIdent (s : Scanner) (anchored : Bool) : Except ScanErr Scanner :=
  if anchored then
    match s.tokens with
    | dot :: _ =>
      if dot.kind = TokenKind.token ∧ dot.contents = "." then
        fullIdentContAux s.tokens s.contents s.startPos s.endPos
      else .error (.unexpected dot)
    | [] => .error .eof
  else
    fullIdentContAux s.tokens s.contents s.startPos s.endPos

/-- The run-time type of `Constant.value`:
`boolean | string | number | null`. Numbers are modelled as rationals
(every finite parse result the model produces is one). -/
inductive Value where
  | bool (b : Bool)
  | str (s : String)
  | num (q : ℚ)
  | null
  deriving DecidableEq, Repr

/-- The natural number denoted by a list of decimal digit characters. -/
def digitsToNat (l : List Char) : Nat :=
  l.foldl (fun a c => a * 10 + (c.toNat - 48)) 0

/-- Decimal digit test. -/
def isDigit (c : Char) : Bool := '0' ≤ c ∧ c ≤ '9'

/-- Modelled from the spec §4 numeric policy: the unsigned core of the
host numeric conversion (ECMAScript `Number(...)`), restricted to plain
decimal literals `digits[.digits]`. `some q` is a finite, non-NaN
result; `none` covers every string whose conversion is not finite and
non-NaN (malformed text, and the keywords `inf`/`nan`, which are not
valid ECMAScript numeric syntax). -/
def jsNumberCore (cs : List Char) : Option ℚ :=
  let intPart := cs.takeWhile isDigit
  let rest := cs.dropWhile isDigit
  if intPart.isEmpty then none
  else
    match rest with
    | [] => some (digitsToNat intPart)
    | '.' :: frac =>
      if frac ≠ [] ∧ frac.all isDigit then
        some ((digitsToNat intPart : ℚ) +
          (digitsToNat frac : ℚ) / ((10 : ℚ) ^ frac.length))
      else none
    | _ => none

/-- Modelled from the spec §4 numeric policy: `Number(s)` with an
optional leading sign; `none` stands for a NaN/non-finite result. -/
def jsNumber (s : String) : Option ℚ :=
  match s.toList with
  | '-' :: r => (jsNumberCore r).map (fun q => -q)
  | '+' :: r => jsNumberCore r
  | r => jsNumberCore r

/-- ECMAScript `s.slice(1, -1)`: start index `min 1 len`, end index
`len - 1` clamped at `0`, taking the characters in between (empty when
the range is empty). Used by the constructor's string branch. -/
def jsSlice1m1 (s : String) : String :=
  let len := s.toList.length
  let b := min 1 len
  let e := max (len - 1) 0
  String.mk ((s.toList.drop b).take (e - b))

/-- The five values of the `literalType` field of `Constant`. -/
inductive LiteralType where
  | identifier
  | string
  | int
  | float
  | boolean
  deriving DecidableEq, Repr

/-- The `Constant` parse node: `literalType`, the private `raw` lexeme,
the `start`/`end` (line, column) span, and the derived `value`. -/
structure Constant where
  literalType : LiteralType
  raw : String
  start : Nat × Nat
  «end» : Nat × Nat
  value : Value
  deriving DecidableEq, Repr

/-- The `Constant` constructor (`src/constant.ts` lines 16–46):
`value` starts as `raw`; for `int`/`float` it becomes `Number(raw)`,
degraded to `null` when that is not finite or is NaN; for `string` it
becomes `raw.slice(1, -1)`; for `boolean` it becomes `raw === "true"`;
for `identifier` it stays the raw string. -/
def Constant.mk' (literalType : LiteralType) (raw : String)
    (start «end» : Nat × Nat) : Constant :=
  let value : Value :=
    match literalType with
    | .int | .float =>
      match jsNumber raw with
      | some q => .num q
      | none => .null
    | .string => .str (jsSlice1m1 raw)
    | .boolean => .bool (raw == "true")
    | .identifier => .str raw
  ⟨literalType, raw, start, «end», value⟩

/-- `Constant.toProto()` (`src/constant.ts` lines 48–50): returns the
raw lexeme unchanged. -/
def Constant.toProto (c : Constant) : String := c.raw

/-- Errors raised by or passing through `Constant.parse`: the
`TokenError` thrown at line 98 (carrying the scanner and the offending
token), or a token-source error propagated unchanged. -/
inductive ParseErr where
  | tokenError (s : Scanner) (t : TokenKind)
  | scanErr (e : ScanErr)
  deriving DecidableEq, Repr

/-- `Constant.parse(scanner)` (`src/constant.ts` lines 68–101): scans one
token, records `scanner.startPos` and `scanner.contents`, classifies it
(default type `"string"`), possibly consuming more tokens on the
identifier-continuation and sign-lookahead paths, and constructs the
node from the final `type`, `value`, recorded start, and the scanner's
current `endPos`. -/
def Constant.parse (s : Scanner) : Except ParseErr (Constant × Scanner) :=
  match s.scan with
  | .error e => .error (.scanErr e)
  | .ok (tok, s1) =>
    let start := s1.startPos
    let value := s1.contents
    if tok = TokenKind.string then
      .ok (Constant.mk' .string value start s1.endPos, s1)
    else if (tok = TokenKind.identifier ∧ value = "false") ∨ value = "true" then
      .ok (Constant.mk' .boolean value start s1.endPos, s1)
    else if tok = TokenKind.identifier then
      match expectFullIdent s1 false with
      | .error e => .error (.scanErr e)
      | .ok s2 => .ok (Constant.mk' .identifier value start s2.endPos, s2)
    else if tok = TokenKind.int then
      .ok (Constant.mk' .int value start s1.endPos, s1)
    else if tok = TokenKind.float then
      .ok (Constant.mk' .float value start s1.endPos, s1)
    else if tok = TokenKind.token ∧ (value = "-" ∨ value = "+") then
      let sign := value
      match s1.scan with
      | .error e => .error (.scanErr e)
      | .ok (tok2, s2) =>
        if tok2 = TokenKind.keyword ∧ s2.contents = "inf" then
          .ok (Constant.mk' .int (sign ++ s2.contents) start s2.endPos, s2)
        else
          .ok (Constant.mk' .string sign start s2.endPos, s2)
    else if tok = TokenKind.keyword ∧ (value = "inf" ∨ value = "nan") then
      .ok (Constant.mk' .int value start s1.endPos, s1)
    else
      .error (.tokenError s1 tok)

/-- The token stream for the dotted identifier lexeme `my.Enum.VALUE`:
an identifier segment, then `.`/segment continuation pairs. -/
def identStream : List RawToken :=
  [⟨.identifier, "my", (0, 0), (0, 2)⟩, ⟨.token, ".", (0, 2), (0, 3)⟩,
   ⟨.identifier, "Enum", (0, 3), (0, 7)⟩, ⟨.token, ".", (0, 7), (0, 8)⟩,
   ⟨.identifier, "VALUE", (0, 8), (0, 13)⟩]

/-- The token stream for the signed-infinity lexeme `-inf`. -/
def signedInfStream : List RawToken :=
  [⟨.token, "-", (0, 0), (0, 1)⟩, ⟨.keyword, "inf", (0, 1), (0, 4)⟩]

/-- The token stream for a sign symbol followed by an integer token. -/
def signIntStream : List RawToken :=
  [⟨.token, "-", (0, 0), (0, 1)⟩, ⟨.int, "5", (0, 1), (0, 2)⟩]

/-- Unfolding lemma: scanning a scanner with at least one remaining
token yields that token's kind and moves its text and span into the
scanner's current fields. -/
theorem Scanner.scan_cons (t : RawToken) (rest : List RawToken)
    (c : String) (sp ep : Nat × Nat) :
    Scanner.scan ⟨t :: rest, c, sp, ep⟩ =
      .ok (t.kind, ⟨rest, t.contents, t.startPos, t.endPos⟩) := rfl

/-- `slice(1, -1)` drops exactly the first and last characters. -/
theorem jsSlice1m1_eq_drop_dropLast (s : String) :
    jsSlice1m1 s = String.mk (s.toList.drop 1).dropLast := by
  unfold jsSlice1m1
  cases h : s.toList with
  | nil => simp
  | cons a l =>
    simp [List.dropLast_eq_take, Nat.min_def, Nat.max_def]

/-- C3: for every node constructed with kind Int or Float, the
accumulated text is fed to the numeric conversion; `value` is `null`
exactly when that conversion yields no finite, non-NaN result (covering
malformed numeric text and the keywords `inf`/`nan`), and otherwise is
that number; `literalType` stays Int/Float and construction is total
(it never raises). -/
theorem numeric_conversion_null_policy (lt : LiteralType) (raw : String)
    (p q : Nat × Nat) (hlt : lt = LiteralType.int ∨ lt = LiteralType.float) :
    (Constant.mk' lt raw p q).literalType = lt ∧
    ((Constant.mk' lt raw p q).value = Value.null ↔ jsNumber raw = none) ∧
    (∀ r, jsNumber raw = some r → (Constant.mk' lt raw p q).value = Value.num r) := by
  rcases hlt with h | h <;> subst h <;>
    cases hj : jsNumber raw <;> simp [Constant.mk', hj]

/-- Witness for C3: constructing an Int node from the text `inf`
yields `value = null` (the numeric conversion of `inf` is not finite). -/
theorem numeric_conversion_null_policy_witness :
    (Constant.mk' LiteralType.int "inf" (0, 0) (0, 3)).literalType = LiteralType.int ∧
    ((Constant.mk' LiteralType.int "inf" (0, 0) (0, 3)).value = Value.null ↔
      jsNumber "inf" = none) ∧
    (∀ r, jsNumber "inf" = some r →
      (Constant.mk' LiteralType.int "inf" (0, 0) (0, 3)).value = Value.num r) :=
  numeric_conversion_null_policy LiteralType.int "inf" (0, 0) (0, 3) (Or.inl rfl)

/-- C5: for every constructed node the run-time type of `value` is
consistent with the kind: a boolean for Boolean, a string for
StringLiteral and Identifier, and for Int and Float a number or `null`,
with `null` exactly when the numeric conversion yields no finite
result. -/
theorem kind_value_consistency (lt : LiteralType) (raw : String) (p q : Nat × Nat) :
    match lt with
    | .boolean => ∃ b, (Constant.mk' lt raw p q).value = Value.bool b
    | .string => ∃ st, (Constant.mk' lt raw p q).value = Value.str st
    | .identifier => ∃ st, (Constant.mk' lt raw p q).value = Value.str st
    | .int =>
        (∃ r, jsNumber raw = some r ∧ (Constant.mk' lt raw p q).value = Value.num r) ∨
        (jsNumber raw = none ∧ (Constant.mk' lt raw p q).value = Value.null)
    | .float =>
        (∃ r, jsNumber raw = some r ∧ (Constant.mk' lt raw p q).value = Value.num r) ∨
        (jsNumber raw = none ∧ (Constant.mk' lt raw p q).value = Value.null) := by
  cases lt <;> simp [Constant.mk'] <;>
    cases hj : jsNumber raw <;> simp [hj]

/-- C7: for every node constructed with kind StringLiteral, `value` is
the raw text with exactly one character removed from each end (the
delimiters), with no decoding of the interior. -/
theorem string_value_strips_delimiters (raw : String) (p q : Nat × Nat) :
    (Constant.mk' LiteralType.string raw p q).value =
      Value.str (String.mk (raw.toList.drop 1).dropLast) ∧
    (Constant.mk' LiteralType.string raw p q).literalType = LiteralType.string := by
  refine ⟨?_, rfl⟩
  simp [Constant.mk', jsSlice1m1_eq_drop_dropLast]

/-- C6: parsing the identifier token `true` yields kind Boolean with
value `true`, and `false` yields kind Boolean with value `false`; in
general, a Boolean node's value is the comparison `text == "true"`. -/
theorem parse_boolean_recognition (s : Scanner) (t : RawToken) (rest : List RawToken)
    (hs : s.tokens = t :: rest) (hk : t.kind = TokenKind.identifier)
    (htf : t.contents = "true" ∨ t.contents = "false") :
    Constant.parse s =
      .ok (⟨LiteralType.boolean, t.contents, t.startPos, t.endPos,
            Value.bool (t.contents == "true")⟩,
           ⟨rest, t.contents, t.startPos, t.endPos⟩) ∧
    ∀ raw p q, (Constant.mk' LiteralType.boolean raw p q).value =
      Value.bool (raw == "true") := by
  constructor
  · obtain ⟨k, c, sp, ep⟩ := t
    simp only at hk htf ⊢
    subst hk
    unfold Constant.parse
    rcases htf with h | h <;> subst h <;>
      simp [Scanner.scan, hs, Constant.mk']
  · intro raw p q
    simp [Constant.mk']

/-- Witness for C6: parsing the single identifier token `true` yields a
Boolean node with value `true`. -/
theorem parse_boolean_recognition_witness :
    Constant.parse (initScanner [⟨.identifier, "true", (0, 0), (0, 4)⟩]) =
      .ok (⟨LiteralType.boolean, "true", (0, 0), (0, 4), Value.bool true⟩,
           ⟨[], "true", (0, 0), (0, 4)⟩) :=
  (parse_boolean_recognition (initScanner [⟨.identifier, "true", (0, 0), (0, 4)⟩])
    ⟨.identifier, "true", (0, 0), (0, 4)⟩ [] rfl rfl (Or.inl rfl)).1

/-- C10: any first token that is not a string literal but whose text is
exactly `true` is classified as Boolean (value `true`) regardless of its
token kind, because the identifier check in the boolean condition binds
only to the `"false"` comparison. -/
theorem text_true_always_boolean (s : Scanner) (t : RawToken) (rest : List RawToken)
    (hs : s.tokens = t :: rest) (hns : t.kind ≠ TokenKind.string)
    (ht : t.contents = "true") :
    Constant.parse s =
      .ok (⟨LiteralType.boolean, "true", t.startPos, t.endPos, Value.bool true⟩,
           ⟨rest, "true", t.startPos, t.endPos⟩) := by
  obtain ⟨k, c, sp, ep⟩ := t
  simp only at hns ht ⊢
  subst ht
  unfold Constant.parse
  simp [Scanner.scan, hs, hns, Constant.mk']

/-- Witness for C10: a symbol (`Token.token`) token with text `true` —
not an identifier — still parses as a Boolean node with value `true`. -/
theorem text_true_always_boolean_witness :
    Constant.parse (initScanner [⟨.token, "true", (0, 0), (0, 4)⟩]) =
      .ok (⟨LiteralType.boolean, "true", (0, 0), (0, 4), Value.bool true⟩,
           ⟨[], "true", (0, 0), (0, 4)⟩) :=
  text_true_always_boolean (initScanner [⟨.token, "true", (0, 0), (0, 4)⟩])
    ⟨.token, "true", (0, 0), (0, 4)⟩ [] rfl (by decide) rfl

/-- C8: parsing a sign symbol (`+` or `-`) followed by the keyword `inf`
yields kind Int, raw text the sign concatenated with `inf`, value
`null`, and an end position advanced past both consumed tokens. -/
theorem parse_signed_inf (s : Scanner) (t1 t2 : RawToken) (rest : List RawToken)
    (hs : s.tokens = t1 :: t2 :: rest)
    (hk1 : t1.kind = TokenKind.token) (hsign : t1.contents = "-" ∨ t1.contents = "+")
    (hk2 : t2.kind = TokenKind.keyword) (hinf : t2.contents = "inf") :
    Constant.parse s =
      .ok (⟨LiteralType.int, t1.contents ++ "inf", t1.startPos, t2.endPos, Value.null⟩,
           ⟨rest, "inf", t2.startPos, t2.endPos⟩) := by
  obtain ⟨k1, c1, sp1, ep1⟩ := t1
  obtain ⟨k2, c2, sp2, ep2⟩ := t2
  simp only at hk1 hsign hk2 hinf ⊢
  subst hk1; subst hk2; subst hinf
  unfold Constant.parse
  rcases hsign with h | h <;> subst h <;>
    simp [Scanner.scan, hs, Constant.mk', jsNumber, jsNumberCore, isDigit,
      String.append]

/-- Witness for C8: parsing the two-token stream for `-inf` yields an
Int node with raw `-inf`, value `null`, end `(0, 4)`. -/
theorem parse_signed_inf_witness :
    Constant.parse (initScanner signedInfStream) =
      .ok (⟨LiteralType.int, "-" ++ "inf", (0, 0), (0, 4), Value.null⟩,
           ⟨[], "inf", (0, 1), (0, 4)⟩) :=
  parse_signed_inf (initScanner signedInfStream)
    ⟨.token, "-", (0, 0), (0, 1)⟩ ⟨.keyword, "inf", (0, 1), (0, 4)⟩ []
    rfl rfl (Or.inl rfl) rfl rfl

/-- C9: when the first token is the symbol `+` or `-` and the second
consumed token is not the keyword `inf`, parse succeeds (no error): the
node keeps the initialized default kind StringLiteral, its raw text is
the single sign character, its value is the empty string (the sign with
first and last characters stripped), and both tokens are consumed. -/
theorem parse_sign_without_inf (s : Scanner) (t1 t2 : RawToken) (rest : List RawToken)
    (hs : s.tokens = t1 :: t2 :: rest)
    (hk1 : t1.kind = TokenKind.token) (hsign : t1.contents = "-" ∨ t1.contents = "+")
    (hnot : ¬(t2.kind = TokenKind.keyword ∧ t2.contents = "inf")) :
    Constant.parse s =
      .ok (⟨LiteralType.string, t1.contents, t1.startPos, t2.endPos, Value.str ""⟩,
           ⟨rest, t2.contents, t2.startPos, t2.endPos⟩) := by
  obtain ⟨k1, c1, sp1, ep1⟩ := t1
  obtain ⟨k2, c2, sp2, ep2⟩ := t2
  simp only at hk1 hsign hnot ⊢
  subst hk1
  unfold Constant.parse
  rcases hsign with h | h <;> subst h <;>
    simp [Scanner.scan, hs, hnot, Constant.mk', jsSlice1m1]

/-- Witness for C9: parsing a `-` symbol followed by the integer token
`5` yields a StringLiteral node with raw `-`, value `""`, both tokens
consumed. -/
theorem parse_sign_without_inf_witness :
    Constant.parse (initScanner signIntStream) =
      .ok (⟨LiteralType.string, "-", (0, 0), (0, 2), Value.str ""⟩,
           ⟨[], "5", (0, 1), (0, 2)⟩) :=
  parse_sign_without_inf (initScanner signIntStream)
    ⟨.token, "-", (0, 0), (0, 1)⟩ ⟨.int, "5", (0, 1), (0, 2)⟩ []
    rfl rfl (Or.inl rfl) (by decide)

/-- C4 counterexample: a keyword token with text `true` matches none of
the classification rules enumerated by the claim (it is not a string,
identifier, integer or float token, not a `+`/`-` symbol, and not the
keyword `inf` or `nan`), yet `parse` succeeds with a Boolean node
instead of failing with a TokenError. -/
theorem keyword_true_escapes_token_error :
    TokenKind.keyword ≠ TokenKind.string ∧
    TokenKind.keyword ≠ TokenKind.identifier ∧
    TokenKind.keyword ≠ TokenKind.int ∧
    TokenKind.keyword ≠ TokenKind.float ∧
    TokenKind.keyword ≠ TokenKind.token ∧
    ("true" : String) ≠ "inf" ∧ ("true" : String) ≠ "nan" ∧
    Constant.parse (initScanner [⟨.keyword, "true", (0, 0), (0, 4)⟩]) =
      .ok (⟨LiteralType.boolean, "true", (0, 0), (0, 4), Value.bool true⟩,
           ⟨[], "true", (0, 0), (0, 4)⟩) := by
  refine ⟨by decide, by decide, by decide, by decide, by decide,
    by decide, by decide, ?_⟩
  rfl

/-- C4 (amended): if the first consumed token matches none of the
classification rules — not a string, identifier, integer or float
token, not a `+`/`-` symbol, not the keyword `inf` or `nan` — and its
text is not exactly `true`, then `parse` fails with a TokenError
carrying the offending token's kind and the scanner positioned at it,
producing no node. -/
theorem unclassifiable_token_errors (s : Scanner) (t : RawToken) (rest : List RawToken)
    (hs : s.tokens = t :: rest)
    (hns : t.kind ≠ TokenKind.string) (hni : t.kind ≠ TokenKind.identifier)
    (hnint : t.kind ≠ TokenKind.int) (hnf : t.kind ≠ TokenKind.float)
    (hsign : ¬(t.kind = TokenKind.token ∧ (t.contents = "-" ∨ t.contents = "+")))
    (hkw : ¬(t.kind = TokenKind.keyword ∧ (t.contents = "inf" ∨ t.contents = "nan")))
    (htrue : t.contents ≠ "true") :
    Constant.parse s =
      .error (.tokenError ⟨rest, t.contents, t.startPos, t.endPos⟩ t.kind) := by
  obtain ⟨k, c, sp, ep⟩ := t
  simp only at hns hni hnint hnf hsign hkw htrue ⊢
  unfold Constant.parse
  simp [Scanner.scan, hs, hns, hni, hnint, hnf, hsign, hkw, htrue]

/-- Witness for C4 (amended): a stray `{` symbol token fails with a
TokenError carrying that token. -/
theorem unclassifiable_token_errors_witness :
    Constant.parse (initScanner [⟨.token, "\x7b", (0, 0), (0, 1)⟩]) =
      .error (.tokenError ⟨[], "\x7b", (0, 0), (0, 1)⟩ TokenKind.token) :=
  unclassifiable_token_errors (initScanner [⟨.token, "\x7b", (0, 0), (0, 1)⟩])
    ⟨.token, "\x7b", (0, 0), (0, 1)⟩ [] rfl (by decide) (by decide) (by decide)
    (by decide) (by decide) (by decide) (by decide)

/-- C2 counterexample: parsing the token stream of `my.Enum.VALUE`
consumes every token (the concatenation of the consumed tokens' texts
is `my.Enum.VALUE`), yet the resulting node's value is the first
segment `my`, not the full consumed identifier text. -/
theorem identifier_value_not_full_ident :
    (Constant.parse (initScanner identStream)).map (fun p => p.1.value) =
      Except.ok (Value.str "my") ∧
    (Constant.parse (initScanner identStream)).map (fun p => p.2.tokens) =
      Except.ok [] ∧
    String.join (identStream.map RawToken.contents) = "my.Enum.VALUE" ∧
    Value.str "my" ≠ Value.str "my.Enum.VALUE" := by
  exact ⟨rfl, rfl, rfl, by decide⟩

/-- C2 (amended): when parse consumes an identifier token whose text is
not `true` or `false`, it additionally consumes a dotted full-identifier
continuation from the token source; the resulting node has kind
Identifier, value equal to the FIRST identifier segment's text only
(the continuation tokens are consumed but not included in the value),
and end reflecting every continuation token consumed. -/
theorem parse_identifier_first_segment (s : Scanner) (t : RawToken)
    (rest : List RawToken) (s2 : Scanner)
    (hs : s.tokens = t :: rest) (hk : t.kind = TokenKind.identifier)
    (ht : t.contents ≠ "true") (hf : t.contents ≠ "false")
    (hfi : expectFullIdent ⟨rest, t.contents, t.startPos, t.endPos⟩ false = .ok s2) :
    Constant.parse s =
      .ok (⟨LiteralType.identifier, t.contents, t.startPos, s2.endPos,
            Value.str t.contents⟩, s2) := by
  obtain ⟨k, c, sp, ep⟩ := t
  simp only at hk ht hf hfi ⊢
  subst hk
  unfold Constant.parse
  simp [Scanner.scan, hs, ht, hf, hfi, Constant.mk']

/-- Witness for C2 (amended): parsing the `my.Enum.VALUE` stream yields
an Identifier node with value `my` and end `(0, 13)`, past the last
continuation token. -/
theorem parse_identifier_first_segment_witness :
    Constant.parse (initScanner identStream) =
      .ok (⟨LiteralType.identifier, "my", (0, 0), (0, 13), Value.str "my"⟩,
           ⟨[], "VALUE", (0, 8), (0, 13)⟩) :=
  parse_identifier_first_segment (initScanner identStream)
    ⟨.identifier, "my", (0, 0), (0, 2)⟩
    [⟨.token, ".", (0, 2), (0, 3)⟩, ⟨.identifier, "Enum", (0, 3), (0, 7)⟩,
     ⟨.token, ".", (0, 7), (0, 8)⟩, ⟨.identifier, "VALUE", (0, 8), (0, 13)⟩]
    ⟨[], "VALUE", (0, 8), (0, 13)⟩
    rfl rfl (by decide) (by decide) rfl

/-- C1 counterexample: parsing the token stream of the lexeme
`my.Enum.VALUE` consumes every token (the consumed source text is
`my.Enum.VALUE`), yet `toProto` on the resulting node returns only
`my` — the raw text does not include the identifier-continuation
tokens, so the round-trip is not byte-for-byte. -/
theorem toProto_drops_continuation_text :
    (Constant.parse (initScanner identStream)).map (fun p => p.1.toProto) =
      Except.ok "my" ∧
    (Constant.parse (initScanner identStream)).map (fun p => p.2.tokens) =
      Except.ok [] ∧
    String.join (identStream.map RawToken.contents) = "my.Enum.VALUE" ∧
    ("my" : String) ≠ "my.Enum.VALUE" :=
  ⟨rfl, rfl, rfl, by decide⟩

/-- C1 (amended): `toProto` always returns the node's raw text
unchanged, and for every stream accepted by `parse` that raw text is
the first consumed token's text — except on the signed-infinity path,
where it is the sign concatenated with `inf`. Lookahead and
identifier-continuation tokens consumed on the identifier and
sign-without-inf paths are not reflected in the raw text, so only that
prefix of the lexeme round-trips. -/
theorem toProto_first_token_text_or_signed_inf (s : Scanner) (t : RawToken)
    (rest : List RawToken) (c : Constant) (s' : Scanner)
    (hs : s.tokens = t :: rest) (h : Constant.parse s = .ok (c, s')) :
    c.toProto = c.raw ∧
    (c.raw = t.contents ∨
      (t.kind = TokenKind.token ∧ (t.contents = "-" ∨ t.contents = "+") ∧
        c.raw = t.contents ++ "inf")) := by
  refine ⟨rfl, ?_⟩
  have hscan : Scanner.scan s =
      .ok (t.kind, ⟨rest, t.contents, t.startPos, t.endPos⟩) := by
    unfold Scanner.scan
    rw [hs]
  unfold Constant.parse at h
  simp only [hscan] at h
  split at h
  · simp only [Except.ok.injEq, Prod.mk.injEq] at h
    obtain ⟨rfl, rfl⟩ := h
    exact Or.inl rfl
  · split at h
    · simp only [Except.ok.injEq, Prod.mk.injEq] at h
      obtain ⟨rfl, rfl⟩ := h
      exact Or.inl rfl
    · split at h
      · split at h
        · simp at h
        · simp only [Except.ok.injEq, Prod.mk.injEq] at h
          obtain ⟨rfl, rfl⟩ := h
          exact Or.inl rfl
      · split at h
        · simp only [Except.ok.injEq, Prod.mk.injEq] at h
          obtain ⟨rfl, rfl⟩ := h
          exact Or.inl rfl
        · split at h
          · simp only [Except.ok.injEq, Prod.mk.injEq] at h
            obtain ⟨rfl, rfl⟩ := h
            exact Or.inl rfl
          · split at h
            · rename_i hsig
              cases rest with
              | nil => simp [Scanner.scan] at h
              | cons t2 rest2 =>
                simp only [Scanner.scan] at h
                split at h
                · rename_i hinf
                  simp only [Except.ok.injEq, Prod.mk.injEq] at h
                  obtain ⟨rfl, rfl⟩ := h
                  exact Or.inr ⟨hsig.1, hsig.2, by simp [Constant.mk', hinf.2]⟩
                · simp only [Except.ok.injEq, Prod.mk.injEq] at h
                  obtain ⟨rfl, rfl⟩ := h
                  exact Or.inl rfl
            · split at h
              · simp only [Except.ok.injEq, Prod.mk.injEq] at h
                obtain ⟨rfl, rfl⟩ := h
                exact Or.inl rfl
              · simp at h

/-- Witness for C1 (amended): parsing the single float token `1.5`
yields a node whose `toProto` is the consumed token's text `1.5`. -/
theorem toProto_first_token_text_witness :
    (Constant.mk' LiteralType.float "1.5" (0, 0) (0, 3)).toProto =
        (Constant.mk' LiteralType.float "1.5" (0, 0) (0, 3)).raw ∧
    ((Constant.mk' LiteralType.float "1.5" (0, 0) (0, 3)).raw = "1.5" ∨
      (TokenKind.float = TokenKind.token ∧ ("1.5" = "-" ∨ "1.5" = "+") ∧
        (Constant.mk' LiteralType.float "1.5" (0, 0) (0, 3)).raw = "1.5" ++ "inf")) :=
  toProto_first_token_text_or_signed_inf
    (initScanner [⟨.float, "1.5", (0, 0), (0, 3)⟩])
    ⟨.float, "1.5", (0, 0), (0, 3)⟩ []
    (Constant.mk' LiteralType.float "1.5" (0, 0) (0, 3))
    ⟨[], "1.5", (0, 0), (0, 3)⟩ rfl rfl

end ProtocParser
